import Mathlib

/-!
Shallow embedding of the VideoStitch pipeline (src/main.py, src/video_utils.py,
src/bgm_utils.py, src/firebase_utils.py) together with theorems about the
behaviour of its audio mixing, duration conformance, clip ordering, request
admission, and job/session lifecycle.

Durations, volumes and sample rates are modelled as rationals; ffmpeg filter
graphs are modelled as a small AST (`AStream`) with a duration semantics
(`adur`, where `none` means an unbounded stream, as produced by an infinite
`aloop`).
-/

namespace VideoStitch

/-- Origin tag of an audio stream fed into the mixer: the concatenated
original clip audio, the voice-over, or the background music. -/
inductive SrcKind where
  | original
  | voice
  | bgm
deriving DecidableEq, Repr

/-- The `duration` option of ffmpeg's `amix` filter.  The code only ever
passes `duration='first'`. -/
inductive MixDuration where
  | first
  | longest
  | shortest
deriving DecidableEq, Repr

/-- An ffmpeg audio filter graph, as constructed by the repository code:
inputs (`ffmpeg.input(...).audio`), `atrim`, `aloop` (with `loop=-1`, i.e.
infinite repetition, and the `size` argument), `volume` and pairwise `amix`
(recording the `inputs=` argument the code passes and the duration policy). -/
inductive AStream where
  | source (kind : SrcKind) (dur : ℚ)
  | atrim (s : AStream) (duration : ℚ)
  | aloop (s : AStream) (size : ℚ)
  | volume (s : AStream) (v : ℚ)
  | amix (a b : AStream) (inputsArg : Nat) (durationPolicy : MixDuration)
deriving DecidableEq, Repr

/-- Duration semantics of an audio filter graph.  `none` means unbounded
(an infinitely looped stream); `atrim d` caps the duration at `d`;
`amix` with the `first` policy takes the first operand's duration. -/
def adur : AStream → Option ℚ
  | .source _ d => some d
  | .atrim s t =>
    match adur s with
    | none => some t
    | some d => some (min d t)
  | .aloop _ _ => none
  | .volume s _ => adur s
  | .amix a b _ p =>
    match p with
    | .first => adur a
    | .longest =>
      match adur a, adur b with
      | some da, some db => some (max da db)
      | _, _ => none
    | .shortest =>
      match adur a, adur b with
      | some da, some db => some (min da db)
      | some da, none => some da
      | none, some db => some db
      | none, none => none

/-- Whether the filter graph contains an `aloop` filter anywhere. -/
def usesLoop : AStream → Bool
  | .source _ _ => false
  | .atrim s _ => usesLoop s
  | .aloop _ _ => true
  | .volume s _ => usesLoop s
  | .amix a b _ _ => usesLoop a || usesLoop b

/-- Whether the filter graph contains an `amix` filter anywhere. -/
def usesMix : AStream → Bool
  | .source _ _ => false
  | .atrim s _ => usesMix s
  | .aloop s _ => usesMix s
  | .volume s _ => usesMix s
  | .amix _ _ _ _ => true

/-- src/video_utils.py lines 217-224: voice duration conformance inside
`concatenate_videos_with_voice`.  No looping and no padding: trim when the
voice is longer than the total video duration, otherwise pass through. -/
def conform_voice (voiceDur total_duration : ℚ) : AStream :=
  if voiceDur > total_duration then
    AStream.atrim (AStream.source .voice voiceDur) total_duration
  else
    AStream.source .voice voiceDur

/-- src/video_utils.py lines 217-226: the voice audio stream handed to the
mixer: duration conformance followed by the `volume` filter. -/
def voice_stream (voiceDur total_duration voice_volume : ℚ) : AStream :=
  AStream.volume (conform_voice voiceDur total_duration) voice_volume

/-- src/bgm_utils.py lines 110-137 (`process_bgm_for_video`): apply the
volume filter when the volume is not 1, then loop-and-trim when the BGM is
shorter than the video, else trim.  The `aloop` size argument is
`int(video_duration * sample_rate)` in the code. -/
def process_bgm_for_video (bgmDur video_duration bgm_volume sample_rate : ℚ) : AStream :=
  let a := AStream.source .bgm bgmDur
  let a := if bgm_volume ≠ 1 then AStream.volume a bgm_volume else a
  if bgmDur < video_duration then
    AStream.atrim (AStream.aloop a ((⌊video_duration * sample_rate⌋ : ℤ) : ℚ)) video_duration
  else
    AStream.atrim a video_duration

/-- src/video_utils.py lines 239-251: the audio mix step.  Zero collected
inputs raise; one input is passed through with no mix filter; two or more
are pairwise-folded with `amix`, the code passing
`inputs=len(audio_inputs)` and `duration='first'` at every step. -/
def mixAudio (inputs : List AStream) : Except String AStream :=
  match inputs with
  | [] => .error "No audio streams available for mixing"
  | [a] => .ok a
  | a :: rest =>
    .ok (rest.foldl (fun acc s => AStream.amix acc s inputs.length .first) a)

/-- Result of `ffmpeg.probe` on a video file, as read by
`get_video_properties` (src/video_utils.py lines 57-72). -/
structure VideoProps where
  width : Nat
  height : Nat
  fps : ℚ
  duration : ℚ
  has_audio : Bool
deriving DecidableEq, Repr

/-- Result of `ffmpeg.probe` on an audio file, as read by
`get_audio_properties` (src/video_utils.py lines 74-85). -/
structure AudioProps where
  duration : ℚ
  sample_rate : ℚ
deriving DecidableEq, Repr

/-- A video filter applied during normalization: `scale` (with or without
`force_original_aspect_ratio=decrease`), center `pad`, or `fps` with
`round='up'`. -/
inductive VFilter where
  | scale (w h : Nat) (forceAspectDecrease : Bool)
  | pad (w h : Nat)
  | fps (target : ℚ)
deriving DecidableEq, Repr

/-- A clip normalized by `process_video_for_concatenation`: the video filter
chain and the audio disposition of the re-encoded output. -/
structure ProcessedSegment where
  vfilters : List VFilter
  hasAudio : Bool
  vcodec : String
  acodec : Option String
deriving DecidableEq, Repr

/-- src/video_utils.py lines 87-141 (`process_video_for_concatenation`):
portrait mode scales preserving aspect then pads; landscape scales directly;
frame rate is conformed to the target; audio is kept only when
`remove_audio` is false and the source has an audio stream. -/
def process_video_for_concatenation (props target : VideoProps) (mode : String)
    (remove_audio : Bool) : ProcessedSegment :=
  let vfs :=
    (if mode = "portrait" then
      [VFilter.scale target.width target.height true,
       VFilter.pad target.width target.height]
    else
      [VFilter.scale target.width target.height false]) ++ [VFilter.fps target.fps]
  let keepAudio := !remove_audio && props.has_audio
  { vfilters := vfs
    hasAudio := keepAudio
    vcodec := "libx264"
    acodec := if keepAudio then some "aac" else none }

/-- Encoder arguments of an `ffmpeg.output` call.  A `vcodec` of `"copy"`
would mean a lossless stream copy (no re-encode); the repository always
passes `"libx264"`. -/
structure OutputArgs where
  vcodec : String
  acodec : String
  preset : String
  crf : Nat
deriving DecidableEq, Repr

/-- The encoder arguments used by every `ffmpeg.output` call of
`concatenate_videos_with_voice`. -/
def encodeArgs : OutputArgs :=
  { vcodec := "libx264", acodec := "aac", preset := "fast", crf := 23 }

/-- The output stage of `concatenate_videos_with_voice`: either a single
concat-demuxer pass straight to the output file (no voice and no BGM), or an
intermediate concatenated file followed by an audio mix and a final output
that maps the video from the intermediate file and the mixed audio. -/
inductive StitchPlan where
  | direct (args : OutputArgs)
  | remux (tempArgs : OutputArgs) (audio_inputs : List AStream)
      (mixed : Except String AStream) (finalArgs : OutputArgs)
deriving Repr

/-- The audio inputs collected for the mixer, `[]` for the direct plan. -/
def audioInputsOf : StitchPlan → List AStream
  | .direct _ => []
  | .remux _ ai _ _ => ai

/-- Outcome of `concatenate_videos_with_voice`. -/
structure ConcatModel where
  remove_audio : Bool
  target : VideoProps
  segments : List ProcessedSegment
  total_duration : ℚ
  plan : StitchPlan
deriving Repr

/-- The trailing BGM entry of the collected audio inputs
(src/video_utils.py lines 231-237): the BGM source trimmed to the total
video duration. -/
def bgmTail (bgm : Option AudioProps) (total_duration : ℚ) : List AStream :=
  match bgm with
  | some bp => [AStream.atrim (AStream.source .bgm bp.duration) total_duration]
  | none => []

/-- src/video_utils.py lines 143-303 (`concatenate_videos_with_voice`).
The first clip's probed properties become the target; audio is removed from
every clip exactly when a voice path is present; the processed clips are
concatenated in the given order.  With voice or BGM present an intermediate
concatenated file is produced and the audio inputs are collected in the
order original (only if the concatenated file has an audio stream, which,
with the concat demuxer, follows the first listed segment), then voice,
then BGM, and mixed; otherwise a single concat pass writes the output.
Every output pass re-encodes with `encodeArgs`. -/
def concatenate_videos_with_voice (clips : List VideoProps) (voice : Option AudioProps)
    (voice_volume : ℚ) (mode : String) (bgm : Option AudioProps) :
    Except String ConcatModel :=
  match clips with
  | [] => .error "No video paths provided"
  | first :: rest =>
    let target := first
    let remove_audio := voice.isSome
    let segments := (first :: rest).map
      (fun p => process_video_for_concatenation p target mode remove_audio)
    let total_duration := ((first :: rest).map (fun p => p.duration)).sum
    let plan :=
      if voice.isSome || bgm.isSome then
        let concatHasAudio :=
          (process_video_for_concatenation first target mode remove_audio).hasAudio
        let base := if concatHasAudio then [AStream.source .original total_duration] else []
        let withVoice := base ++
          (match voice with
           | some vp => [voice_stream vp.duration total_duration voice_volume]
           | none => [])
        let ai := withVoice ++ bgmTail bgm total_duration
        StitchPlan.remux encodeArgs ai (mixAudio ai) encodeArgs
      else
        StitchPlan.direct encodeArgs
    .ok { remove_audio := remove_audio, target := target, segments := segments,
          total_duration := total_duration, plan := plan }

/-- One entry of the request's `videos` list (`VideoItem` in src/main.py
lines 36-38): a source URL and a caller-supplied sequence key. -/
structure Clip where
  url : String
  sequence : Int
deriving DecidableEq, Repr

/-- Ascending order on the caller-supplied sequence key. -/
def seqLE (a b : Clip) : Prop := a.sequence ≤ b.sequence

instance : DecidableRel seqLE := fun a b =>
  inferInstanceAs (Decidable (a.sequence ≤ b.sequence))

instance : IsTotal Clip seqLE := ⟨fun a b => le_total a.sequence b.sequence⟩

instance : IsTrans Clip seqLE := ⟨fun _ _ _ h h2 => le_trans h h2⟩

/-- src/main.py line 143: `sorted(videos, key=lambda x: x.sequence)`.
Python's `sorted` is the stable ascending sort, modelled by stable
insertion sort with respect to `seqLE`. -/
def sorted_videos (videos : List Clip) : List Clip :=
  videos.insertionSort seqLE

/-- The body of a POST /stitch request (`StitchRequest` in src/main.py
lines 40-47), with the fields the admission checks read. -/
structure StitchRequest where
  videos : List Clip
  voice_url : Option String
  voice_volume : Option ℚ
  mode : String
  bgm_enabled : Bool
  bgm_category : Option String
  bgm_volume : Option ℚ
deriving DecidableEq, Repr

/-- The admission-time rejections of `stitch_videos`
(src/main.py lines 75-89). -/
inductive AdmissionError where
  | tooFewVideos
  | badVoiceVolume
  | badMode
  | badBgmVolume
deriving DecidableEq, Repr

/-- Whether an admission outcome is a rejection of a volume parameter. -/
def isVolumeRejection : Except AdmissionError Unit → Bool
  | .error .badVoiceVolume => true
  | .error .badBgmVolume => true
  | _ => false

/-- src/main.py lines 75-89: the admission checks of the /stitch endpoint, in
source order: at least one video; `voice_volume`, when provided, inside
[0, 2]; mode is portrait or landscape; and, only when `bgm_enabled` is set,
`bgm_volume`, when provided, inside [0, 2]. -/
def stitch_validate (r : StitchRequest) : Except AdmissionError Unit :=
  if r.videos.length < 1 then .error .tooFewVideos
  else if (match r.voice_volume with
           | some v => decide (v < 0) || decide (v > 2)
           | none => false) then .error .badVoiceVolume
  else if r.mode ≠ "portrait" ∧ r.mode ≠ "landscape" then .error .badMode
  else if r.bgm_enabled &&
          (match r.bgm_volume with
           | some v => decide (v < 0) || decide (v > 2)
           | none => false) then .error .badBgmVolume
  else .ok ()

/-- One `update_session_status` call emitted by the background worker
(src/firebase_utils.py lines 60-84 as invoked from src/main.py). -/
structure SessionUpdate where
  status : String
  progress : Nat
  message : String
deriving DecidableEq, Repr

/-- An interim progress update: every non-terminal `update_session_status`
call of the background worker passes status processing. -/
def upd (progress : Nat) (message : String) : SessionUpdate :=
  { status := "processing", progress := progress, message := message }

/-- The terminal update written by the exception handler of
`process_videos_background` (src/main.py lines 234-242): status failed,
progress reset to 0, message prefixed with the cause. -/
def failedUpdate (e : String) : SessionUpdate :=
  { status := "failed", progress := 0, message := "Processing failed: " ++ e }

/-- The terminal update of the success path (src/main.py lines 226-232). -/
def completedUpdate : SessionUpdate :=
  { status := "completed", progress := 100,
    message := "Videos stitched successfully and uploaded to S3" }

/-- Outcomes of the external collaborators invoked by a background job:
per-clip download, voice download, BGM selection, BGM processing, the
stitch (concatenation) step, and the S3 upload. -/
structure PipelineEnv where
  download : Clip → Except String String
  downloadVoice : String → Except String String
  bgmSelect : Except String (Option String)
  bgmProcess : String → Except String String
  stitch : List String → Option String → Option String → Except String String
  upload : String → Except String String

/-- src/main.py lines 149-155: the download loop over the sorted clips.
Each successful download appends a progress update
`10 + int((i+1)/total * 30)`; a failure raises, aborting the loop. -/
def downloadClips (dl : Clip → Except String String) (total : Nat) :
    Nat → List Clip → List SessionUpdate × Except String (List String)
  | _, [] => ([], .ok [])
  | i, c :: cs =>
    match dl c with
    | .error e => ([], .error e)
    | .ok p =>
      let r := downloadClips dl total (i + 1) cs
      (upd (10 + (i + 1) * 30 / total)
          ("Downloaded " ++ toString (i + 1) ++ "/" ++ toString total ++ " videos...")
        :: r.1, r.2.map (fun ps => p :: ps))

/-- src/main.py lines 157-164: optional voice download.  A failure is
re-raised with the "Failed to download voice file" prefix. -/
def voiceStep (env : PipelineEnv) (voice_url : Option String) :
    List SessionUpdate × Except String (Option String) :=
  match voice_url with
  | none => ([], .ok none)
  | some vu =>
    ([upd 40 "Downloading voice file..."],
     match env.downloadVoice vu with
     | .error e => .error ("Failed to download voice file: " ++ e)
     | .ok vp => .ok (some vp))

/-- src/main.py lines 166-201: optional BGM selection and processing.  The
whole stage is wrapped in try/except: any failure (or no BGM found) yields
`none` and the job proceeds without BGM; the stage can never raise. -/
def bgmStep (env : PipelineEnv) (bgm_enabled : Bool) :
    List SessionUpdate × Option String :=
  if bgm_enabled then
    ([upd 45 "Selecting and processing BGM..."],
     match env.bgmSelect with
     | .error _ => none
     | .ok none => none
     | .ok (some p) =>
       match env.bgmProcess p with
       | .error _ => none
       | .ok pp => some pp)
  else ([], none)

/-- src/main.py lines 203-232: the stitch and upload stages with their
progress updates and terminal update; a failure of either raises. -/
def stitchAndUpload (env : PipelineEnv) (paths : List String)
    (voice_path bgm_path : Option String) :
    List SessionUpdate × Except String String :=
  match env.stitch paths voice_path bgm_path with
  | .error e =>
    ([upd 50 "Processing and stitching videos...", failedUpdate e], .error e)
  | .ok out =>
    match env.upload out with
    | .error e =>
      ([upd 50 "Processing and stitching videos...", upd 80 "Uploading to S3...",
        failedUpdate e], .error e)
    | .ok url =>
      ([upd 50 "Processing and stitching videos...", upd 80 "Uploading to S3...",
        completedUpdate], .ok url)

/-- The download stage applied to the sorted clip list (src/main.py lines
143-155): the ordering is fixed by the sort before any download begins. -/
def dlPart (env : PipelineEnv) (videos : List Clip) :
    List SessionUpdate × Except String (List String) :=
  downloadClips env.download (sorted_videos videos).length 0 (sorted_videos videos)

/-- src/main.py lines 126-242 (`process_videos_background`): sort the clips
by sequence before any download, then download clips, download voice,
resolve BGM (best effort), stitch and upload.  Returns the ordered list of
session updates written to the store and the job outcome (the raised
exception, if any, as observed by the except handler). -/
def process_videos_background (env : PipelineEnv) (videos : List Clip)
    (voice_url : Option String) (bgm_enabled : Bool) :
    List SessionUpdate × Except String String :=
  match (dlPart env videos).2 with
  | .error e =>
    (upd 10 "Downloading videos..." :: (dlPart env videos).1 ++ [failedUpdate e],
     .error e)
  | .ok paths =>
    match (voiceStep env voice_url).2 with
    | .error e =>
      (upd 10 "Downloading videos..." :: (dlPart env videos).1
        ++ (voiceStep env voice_url).1 ++ [failedUpdate e], .error e)
    | .ok voice_path =>
      (upd 10 "Downloading videos..." :: (dlPart env videos).1
        ++ (voiceStep env voice_url).1 ++ (bgmStep env bgm_enabled).1
        ++ (stitchAndUpload env paths voice_path (bgmStep env bgm_enabled).2).1,
       (stitchAndUpload env paths voice_path (bgmStep env bgm_enabled).2).2)

/-- A session document in the store (src/firebase_utils.py lines 34-50). -/
structure SessionRecord where
  session_id : String
  status : String
  progress : Nat
  message : String
  voice_url : Option String
  voice_volume : ℚ
  mode : String
  bgm_enabled : Bool
  bgm_volume : ℚ
  s3_url : Option String
  error : Option String
deriving DecidableEq, Repr

/-- src/firebase_utils.py lines 29-54 (`create_session`): the document
written at request admission.  Its initial status is the literal
`'processing'`. -/
def create_session (session_id : String) (voice_url : Option String)
    (voice_volume : ℚ) (mode : String) (bgm_enabled : Bool) (bgm_volume : ℚ) :
    SessionRecord :=
  { session_id := session_id
    status := "processing"
    progress := 0
    message := "Session created, starting video processing..."
    voice_url := voice_url
    voice_volume := voice_volume
    mode := mode
    bgm_enabled := bgm_enabled
    bgm_volume := bgm_volume
    s3_url := none
    error := none }

/-- src/firebase_utils.py lines 60-84 (`update_session_status`): apply an
update to the stored document; a non-null error forces status failed. -/
def update_session_status (rec : SessionRecord) (status : String) (progress : Nat)
    (message : String) (s3_url : Option String) (error : Option String) :
    SessionRecord :=
  let r := { rec with
    status := status
    progress := progress
    message := message
    s3_url := if s3_url.isSome then s3_url else rec.s3_url }
  match error with
  | some e => { r with error := some e, status := "failed" }
  | none => r

/-! ## Helper lemmas -/

/-- Folding `amix` steps with the `first` duration policy preserves the
accumulated stream's duration. -/
theorem adur_foldl_amix_first (n : Nat) :
    ∀ (rest : List AStream) (acc : AStream),
      adur (rest.foldl (fun a s => AStream.amix a s n .first) acc) = adur acc := by
  intro rest
  induction rest with
  | nil => intro acc; rfl
  | cons b l ih =>
    intro acc
    simpa [List.foldl_cons] using ih (AStream.amix acc b n .first)

/-! ## C1: audio mixer trichotomy -/

/-- C1.  The audio mixer over the collected list of audio inputs: zero
elements raise the no-audio mixing error; exactly one element is passed
through unchanged with no mix filter applied; two or more elements are
pairwise-folded into a mix whose output duration equals the first input's
duration (the `first` duration policy). -/
theorem mixer_zero_one_many (inputs : List AStream) :
    (inputs = [] → mixAudio inputs = .error "No audio streams available for mixing")
    ∧ (∀ a, inputs = [a] → mixAudio inputs = .ok a)
    ∧ (∀ a b rest, inputs = a :: b :: rest →
        ∃ m, mixAudio inputs = .ok m ∧ usesMix m = true ∧ adur m = adur a) := by
  refine ⟨fun h => by subst h; rfl, fun a h => by subst h; rfl, ?_⟩
  intro a b rest h
  subst h
  refine ⟨(b :: rest).foldl
    (fun acc s => AStream.amix acc s (a :: b :: rest).length .first) a, rfl, ?_, ?_⟩
  · have hshape :
        ∀ (l : List AStream) (x y : AStream) (n : Nat),
          usesMix (l.foldl (fun acc s => AStream.amix acc s n .first)
            (AStream.amix x y n .first)) = true := by
      intro l
      induction l with
      | nil => intro x y n; rfl
      | cons c cs ih => intro x y n; simpa [List.foldl_cons] using ih _ _ _
    simpa [List.foldl_cons] using hshape rest a b (a :: b :: rest).length
  · simpa [List.foldl_cons, adur] using
      adur_foldl_amix_first (a :: b :: rest).length rest
        (AStream.amix a b (a :: b :: rest).length .first)

/-- Witness for C1 at concrete inputs of length 0, 1 and 2. -/
theorem mixer_zero_one_many_witness :
    mixAudio ([] : List AStream) = .error "No audio streams available for mixing"
    ∧ mixAudio [AStream.source .voice 3] = .ok (AStream.source .voice 3)
    ∧ ∃ m, mixAudio [AStream.source .original 10, AStream.source .voice 3] = .ok m
        ∧ usesMix m = true ∧ adur m = adur (AStream.source .original 10) :=
  ⟨(mixer_zero_one_many []).1 rfl,
   (mixer_zero_one_many [AStream.source .voice 3]).2.1 _ rfl,
   (mixer_zero_one_many
      [AStream.source .original 10, AStream.source .voice 3]).2.2 _ _ [] rfl⟩

/-! ## C3: BGM duration conformance -/

/-- C3.  `process_bgm_for_video`: a BGM source shorter than the target
duration is looped then trimmed so the processed segment's length equals the
target exactly; a source at least as long is trimmed to the target. -/
theorem bgm_conform_duration (bgmDur video_duration bgm_volume sample_rate : ℚ) :
    (bgmDur < video_duration →
      adur (process_bgm_for_video bgmDur video_duration bgm_volume sample_rate)
          = some video_duration
      ∧ usesLoop (process_bgm_for_video bgmDur video_duration bgm_volume sample_rate)
          = true)
    ∧ (video_duration ≤ bgmDur →
      adur (process_bgm_for_video bgmDur video_duration bgm_volume sample_rate)
          = some video_duration
      ∧ usesLoop (process_bgm_for_video bgmDur video_duration bgm_volume sample_rate)
          = false) := by
  unfold process_bgm_for_video
  constructor
  · intro hlt
    rw [if_pos hlt]
    by_cases hv : bgm_volume ≠ 1 <;> simp [hv, adur, usesLoop]
  · intro hge
    rw [if_neg (not_lt.mpr hge)]
    by_cases hv : bgm_volume ≠ 1 <;>
      simp [hv, adur, usesLoop, min_eq_right hge]

/-- Witness for C3 at concrete durations on both sides of the comparison. -/
theorem bgm_conform_duration_witness :
    ((5 : ℚ) < 12 ∧ adur (process_bgm_for_video 5 12 (1/2) 44100) = some 12
      ∧ usesLoop (process_bgm_for_video 5 12 (1/2) 44100) = true)
    ∧ ((12 : ℚ) ≤ 20 ∧ adur (process_bgm_for_video 20 12 1 44100) = some 12
      ∧ usesLoop (process_bgm_for_video 20 12 1 44100) = false) := by
  have h1 := (bgm_conform_duration 5 12 (1/2) 44100).1 (by norm_num)
  have h2 := (bgm_conform_duration 20 12 1 44100).2 (by norm_num)
  exact ⟨⟨by norm_num, h1.1, h1.2⟩, ⟨by norm_num, h2.1, h2.2⟩⟩

/-! ## C4: voice duration conformance -/

/-- C4.  The voice stream is trimmed to exactly the target duration when its
probed duration exceeds the target; otherwise it is used unmodified (the
conformance step is the bare source), with no padding and no looping. -/
theorem voice_conform_duration (voiceDur total_duration voice_volume : ℚ) :
    (voiceDur > total_duration →
      adur (voice_stream voiceDur total_duration voice_volume) = some total_duration)
    ∧ (voiceDur ≤ total_duration →
      conform_voice voiceDur total_duration = AStream.source .voice voiceDur
      ∧ adur (voice_stream voiceDur total_duration voice_volume) = some voiceDur)
    ∧ usesLoop (voice_stream voiceDur total_duration voice_volume) = false := by
  refine ⟨?_, ?_, ?_⟩
  · intro hgt
    simp [voice_stream, conform_voice, if_pos hgt, adur,
      min_eq_right (le_of_lt hgt)]
  · intro hle
    constructor
    · simp [conform_voice, not_lt.mpr hle]
    · simp [voice_stream, conform_voice, not_lt.mpr hle, adur]
  · unfold voice_stream conform_voice
    by_cases h : voiceDur > total_duration <;> simp [h, usesLoop]

/-- Witness for C4 at concrete durations on both sides of the comparison. -/
theorem voice_conform_duration_witness :
    ((20 : ℚ) > 12 ∧ adur (voice_stream 20 12 1) = some 12)
    ∧ ((5 : ℚ) ≤ 12 ∧ conform_voice 5 12 = AStream.source .voice 5
        ∧ adur (voice_stream 5 12 1) = some 5)
    ∧ usesLoop (voice_stream 20 12 1) = false := by
  have h1 := (voice_conform_duration 20 12 1).1 (by norm_num)
  have h2 := (voice_conform_duration 5 12 1).2.1 (by norm_num)
  have h3 := (voice_conform_duration 20 12 1).2.2
  exact ⟨⟨by norm_num, h1⟩, ⟨by norm_num, h2.1, h2.2⟩, h3⟩

/-! ## C2: concatenation output plan -/

/-- A concrete probed clip used in counterexamples and witnesses. -/
def cexClip : VideoProps :=
  { width := 1080, height := 1920, fps := 30, duration := 5, has_audio := true }

/-- C2 counterexample.  With no voice and no BGM the concatenator does use a
single concat-demuxer pass, but its output arguments re-encode the video
stream (`vcodec='libx264'`, video_utils.py lines 277-292) rather than
stream-copying it (`vcodec='copy'`), so the join is not free of re-encoding
as claimed. -/
theorem concat_direct_reencodes_cex :
    ∃ m, concatenate_videos_with_voice [cexClip] none 1 "portrait" none = .ok m
      ∧ m.plan = StitchPlan.direct encodeArgs
      ∧ encodeArgs.vcodec = "libx264"
      ∧ ¬(encodeArgs.vcodec = "copy") :=
  ⟨_, rfl, rfl, rfl, by decide⟩

/-- C2 as amended.  When no extra audio (no voice and no BGM) is requested
the concatenator joins the ordered normalized segments in a single
concat-demuxer pass straight to the output file, though it re-encodes with
the fixed libx264/aac profile rather than stream-copying; only when voice or
BGM exists does it produce an intermediate concatenated file whose video
track is re-paired with a separately mixed audio track. -/
theorem concat_plan_dichotomy (clips : List VideoProps) (voice : Option AudioProps)
    (voice_volume : ℚ) (mode : String) (bgm : Option AudioProps) (m : ConcatModel)
    (h : concatenate_videos_with_voice clips voice voice_volume mode bgm = .ok m) :
    (voice = none → bgm = none → m.plan = StitchPlan.direct encodeArgs)
    ∧ (voice.isSome = true ∨ bgm.isSome = true →
        m.plan = StitchPlan.remux encodeArgs (audioInputsOf m.plan)
          (mixAudio (audioInputsOf m.plan)) encodeArgs)
    ∧ encodeArgs.vcodec = "libx264" := by
  cases clips with
  | nil => simp [concatenate_videos_with_voice] at h
  | cons first rest =>
    simp only [concatenate_videos_with_voice, Except.ok.injEq] at h
    subst h
    refine ⟨?_, ?_, rfl⟩
    · intro hv hb
      subst hv; subst hb
      rfl
    · intro hvb
      have hc : (Option.isSome voice || Option.isSome bgm) = true := by
        rcases hvb with hv | hb
        · simp [hv]
        · simp [hb]
      simp only [hc, if_true, audioInputsOf]

/-- Witness for C2 as amended, exercising both branches at concrete inputs. -/
theorem concat_plan_dichotomy_witness :
    (∃ m, concatenate_videos_with_voice [cexClip] none 1 "portrait" none = .ok m
      ∧ m.plan = StitchPlan.direct encodeArgs)
    ∧ (∃ m, concatenate_videos_with_voice [cexClip] (some ⟨3, 44100⟩) 1 "portrait" none
          = .ok m
      ∧ m.plan = StitchPlan.remux encodeArgs (audioInputsOf m.plan)
          (mixAudio (audioInputsOf m.plan)) encodeArgs) := by
  constructor
  · exact ⟨_, rfl, ((concat_plan_dichotomy [cexClip] none 1 "portrait" none _ rfl).1
      rfl rfl)⟩
  · exact ⟨_, rfl, ((concat_plan_dichotomy [cexClip] (some ⟨3, 44100⟩) 1 "portrait" none
      _ rfl).2.1 (Or.inl rfl))⟩

/-! ## C10: voice removes original clip audio -/

/-- C10.  Audio is removed from every normalized clip exactly when a voice
path is present; with a voice the concatenated video has no audio stream, so
the collected mixer inputs are exactly the voice stream followed by the BGM
stream when present (never the original clip audio); without a voice the
normalized clips keep their probed audio disposition. -/
theorem voice_removes_original_audio (clips : List VideoProps)
    (voice : Option AudioProps) (voice_volume : ℚ) (mode : String)
    (bgm : Option AudioProps) (m : ConcatModel)
    (h : concatenate_videos_with_voice clips voice voice_volume mode bgm = .ok m) :
    m.remove_audio = voice.isSome
    ∧ (∀ vp, voice = some vp →
        (∀ s ∈ m.segments, s.hasAudio = false)
        ∧ audioInputsOf m.plan =
            voice_stream vp.duration m.total_duration voice_volume
              :: bgmTail bgm m.total_duration)
    ∧ (voice = none →
        m.segments.map (fun s => s.hasAudio) = clips.map (fun p => p.has_audio)) := by
  cases clips with
  | nil => simp [concatenate_videos_with_voice] at h
  | cons first rest =>
    simp only [concatenate_videos_with_voice, Except.ok.injEq] at h
    subst h
    refine ⟨rfl, ?_, ?_⟩
    · intro vp hv
      subst hv
      constructor
      · intro s hs
        simp only [List.mem_map] at hs
        obtain ⟨p, _, hp⟩ := hs
        simp [← hp, process_video_for_concatenation]
      · simp [audioInputsOf, process_video_for_concatenation]
    · intro hv
      subst hv
      simp [process_video_for_concatenation]

/-- Witness for C10 at a concrete clip list, with and without voice. -/
theorem voice_removes_original_audio_witness :
    (∃ m, concatenate_videos_with_voice [cexClip] (some ⟨3, 44100⟩) 1 "portrait"
        (some ⟨7, 44100⟩) = .ok m
      ∧ m.remove_audio = true
      ∧ (∀ s ∈ m.segments, s.hasAudio = false)
      ∧ audioInputsOf m.plan =
          voice_stream 3 m.total_duration 1 :: bgmTail (some ⟨7, 44100⟩) m.total_duration)
    ∧ (∃ m, concatenate_videos_with_voice [cexClip] none 1 "portrait" none = .ok m
      ∧ m.segments.map (fun s => s.hasAudio) = [true]) := by
  constructor
  · have h := voice_removes_original_audio [cexClip] (some ⟨3, 44100⟩) 1 "portrait"
      (some ⟨7, 44100⟩) _ rfl
    exact ⟨_, rfl, h.1, (h.2.1 _ rfl).1, (h.2.1 _ rfl).2⟩
  · have h := voice_removes_original_audio [cexClip] none 1 "portrait" none _ rfl
    exact ⟨_, rfl, by simpa using h.2.2 rfl⟩

/-! ## C5: stable clip ordering -/

/-- Inserting a clip with `orderedInsert` passes only over clips with a
strictly smaller sequence key, so filtering at any key value commutes with
the insertion: the insertion-sorted order is stable. -/
theorem filter_orderedInsert_seq (k : ℤ) (a : Clip) :
    ∀ l : List Clip,
      (l.orderedInsert seqLE a).filter (fun v => decide (v.sequence = k)) =
        if a.sequence = k then
          a :: l.filter (fun v => decide (v.sequence = k))
        else
          l.filter (fun v => decide (v.sequence = k)) := by
  intro l
  induction l with
  | nil =>
    by_cases ha : a.sequence = k <;> simp [List.orderedInsert, List.filter, ha]
  | cons b l ih =>
    by_cases hab : seqLE a b
    · by_cases ha : a.sequence = k <;>
        simp [List.orderedInsert, hab, List.filter_cons, ha]
    · have hb : b.sequence < a.sequence := by
        simpa [seqLE, not_le] using hab
      by_cases ha : a.sequence = k
      · have hbk : ¬(b.sequence = k) := by omega
        simp [List.orderedInsert, hab, List.filter_cons, ha, hbk, ih]
      · by_cases hbk : b.sequence = k <;>
          simp [List.orderedInsert, hab, List.filter_cons, ha, hbk, ih]

/-- The sorted clip order filtered at any sequence key equals the input
order filtered at that key: ties are broken by input order. -/
theorem filter_sorted_videos (k : ℤ) :
    ∀ videos : List Clip,
      (sorted_videos videos).filter (fun v => decide (v.sequence = k)) =
        videos.filter (fun v => decide (v.sequence = k)) := by
  intro videos
  induction videos with
  | nil => rfl
  | cons a l ih =>
    by_cases ha : a.sequence = k <;>
      simp [sorted_videos, List.insertionSort, filter_orderedInsert_seq, ha,
        List.filter_cons, ih, sorted_videos] at ih ⊢

/-- When every download succeeds, the download loop returns the local paths
in exactly the order of the clip list it was given. -/
theorem downloadClips_ok_map (dl : Clip → Except String String) (f : Clip → String)
    (total : Nat) :
    ∀ (l : List Clip) (i : Nat), (∀ c ∈ l, dl c = .ok (f c)) →
      (downloadClips dl total i l).2 = .ok (l.map f) := by
  intro l
  induction l with
  | nil => intro i _; rfl
  | cons c cs ih =>
    intro i hok
    have hc : dl c = .ok (f c) := hok c (by simp)
    have hcs : ∀ x ∈ cs, dl x = .ok (f x) := fun x hx => hok x (by simp [hx])
    simp [downloadClips, hc, ih (i + 1) hcs, Except.map]

/-- C5.  The clips are processed in the order of the caller-supplied
sequence keys sorted ascending, ties broken by original input order (the
sort is a stable permutation of the input), the ordering is fixed before any
download begins (the download loop consumes the already-sorted list and
hands its paths onward in that order), and the concatenator keeps the given
order when normalizing the clips. -/
theorem clip_ordering_stable_sort (videos : List Clip) (env : PipelineEnv)
    (f : Clip → String) (hdl : ∀ c, env.download c = .ok (f c)) :
    List.Sorted seqLE (sorted_videos videos)
    ∧ (sorted_videos videos).Perm videos
    ∧ (∀ k : ℤ, (sorted_videos videos).filter (fun v => decide (v.sequence = k)) =
        videos.filter (fun v => decide (v.sequence = k)))
    ∧ (downloadClips env.download (sorted_videos videos).length 0
        (sorted_videos videos)).2 = .ok ((sorted_videos videos).map f)
    ∧ (∀ (first : VideoProps) (rest : List VideoProps) (voice : Option AudioProps)
        (voice_volume : ℚ) (mode : String) (bgm : Option AudioProps) (m : ConcatModel),
        concatenate_videos_with_voice (first :: rest) voice voice_volume mode bgm
            = .ok m →
        m.segments = (first :: rest).map
          (fun p => process_video_for_concatenation p first mode voice.isSome)) := by
  refine ⟨List.sorted_insertionSort seqLE videos,
    List.perm_insertionSort seqLE videos,
    fun k => filter_sorted_videos k videos,
    downloadClips_ok_map env.download f _ (sorted_videos videos) 0
      (fun c _ => hdl c), ?_⟩
  intro first rest voice voice_volume mode bgm m h
  simp only [concatenate_videos_with_voice, Except.ok.injEq] at h
  subst h
  rfl

/-- Witness for C5 at a concrete clip list with a tie on the sequence key. -/
theorem clip_ordering_stable_sort_witness :
    sorted_videos [⟨"a", 3⟩, ⟨"b", 1⟩, ⟨"c", 3⟩, ⟨"d", 1⟩] =
      [⟨"b", 1⟩, ⟨"d", 1⟩, ⟨"a", 3⟩, ⟨"c", 3⟩]
    ∧ List.Sorted seqLE (sorted_videos [⟨"a", 3⟩, ⟨"b", 1⟩, ⟨"c", 3⟩, ⟨"d", 1⟩])
    ∧ (sorted_videos [⟨"a", 3⟩, ⟨"b", 1⟩, ⟨"c", 3⟩, ⟨"d", 1⟩]).Perm
        [⟨"a", 3⟩, ⟨"b", 1⟩, ⟨"c", 3⟩, ⟨"d", 1⟩]
    ∧ (downloadClips (fun c => .ok c.url) 4 0
        (sorted_videos [⟨"a", 3⟩, ⟨"b", 1⟩, ⟨"c", 3⟩, ⟨"d", 1⟩])).2 =
        .ok ["b", "d", "a", "c"] := by
  have h := clip_ordering_stable_sort [⟨"a", 3⟩, ⟨"b", 1⟩, ⟨"c", 3⟩, ⟨"d", 1⟩]
    { download := fun c => .ok c.url, downloadVoice := fun _ => .ok "v",
      bgmSelect := .ok none, bgmProcess := fun _ => .ok "b",
      stitch := fun _ _ _ => .ok "o", upload := fun _ => .ok "u" }
    (fun c => c.url) (fun _ => rfl)
  refine ⟨by decide, h.1, h.2.1, ?_⟩
  simpa using h.2.2.2.1

/-! ## Pipeline trace lemmas -/

/-- Every update written by the download loop has status processing. -/
theorem downloadClips_statuses (dl : Clip → Except String String) (total : Nat) :
    ∀ (l : List Clip) (i : Nat), ∀ u ∈ (downloadClips dl total i l).1,
      u.status = "processing" := by
  intro l
  induction l with
  | nil => intro i u hu; simp [downloadClips] at hu
  | cons c cs ih =>
    intro i u hu
    cases hdl : dl c with
    | error e => simp [downloadClips, hdl] at hu
    | ok p =>
      simp only [downloadClips, hdl] at hu
      rcases List.mem_cons.mp hu with hu | hu
      · subst hu; rfl
      · exact ih (i + 1) u hu

/-- Every update written by the voice step has status processing. -/
theorem voiceStep_statuses (env : PipelineEnv) (voice_url : Option String) :
    ∀ u ∈ (voiceStep env voice_url).1, u.status = "processing" := by
  cases voice_url with
  | none => intro u hu; simp [voiceStep] at hu
  | some vu =>
    intro u hu
    simp only [voiceStep, List.mem_singleton] at hu
    subst hu; rfl

/-- Every update written by the BGM step has status processing. -/
theorem bgmStep_statuses (env : PipelineEnv) (bgm_enabled : Bool) :
    ∀ u ∈ (bgmStep env bgm_enabled).1, u.status = "processing" := by
  cases bgm_enabled with
  | false => intro u hu; simp [bgmStep] at hu
  | true =>
    intro u hu
    simp only [bgmStep, if_true, List.mem_singleton] at hu
    subst hu; rfl

/-- Shape of the stitch-and-upload stage: interim updates are processing and
the stage ends with the terminal update matching its outcome. -/
theorem stitchAndUpload_shape (env : PipelineEnv) (paths : List String)
    (voice_path bgm_path : Option String) :
    ∃ pre last, (stitchAndUpload env paths voice_path bgm_path).1 = pre ++ [last]
      ∧ (∀ u ∈ pre, u.status = "processing")
      ∧ ((∃ e, (stitchAndUpload env paths voice_path bgm_path).2 = .error e
            ∧ last = failedUpdate e)
        ∨ (∃ url, (stitchAndUpload env paths voice_path bgm_path).2 = .ok url
            ∧ last = completedUpdate)) := by
  unfold stitchAndUpload
  cases hs : env.stitch paths voice_path bgm_path with
  | error e =>
    refine ⟨[upd 50 "Processing and stitching videos..."], failedUpdate e, rfl, ?_,
      Or.inl ⟨e, rfl, rfl⟩⟩
    intro u hu
    rcases List.mem_singleton.mp hu with hu
    subst hu; rfl
  | ok out =>
    dsimp only
    cases hup : env.upload out with
    | error e =>
      refine ⟨[upd 50 "Processing and stitching videos...",
        upd 80 "Uploading to S3..."], failedUpdate e, rfl, ?_, Or.inl ⟨e, rfl, rfl⟩⟩
      intro u hu
      rcases List.mem_cons.mp hu with hu | hu
      · subst hu; rfl
      · rcases List.mem_singleton.mp hu with hu
        subst hu; rfl
    | ok url =>
      refine ⟨[upd 50 "Processing and stitching videos...",
        upd 80 "Uploading to S3..."], completedUpdate, rfl, ?_, Or.inr ⟨url, rfl, rfl⟩⟩
      intro u hu
      rcases List.mem_cons.mp hu with hu | hu
      · subst hu; rfl
      · rcases List.mem_singleton.mp hu with hu
        subst hu; rfl

/-- Unfolding of a run whose download stage raises. -/
theorem pvb_eq_dl_error (env : PipelineEnv) (videos : List Clip)
    (voice_url : Option String) (bgm_enabled : Bool) (e : String)
    (h : (dlPart env videos).2 = .error e) :
    process_videos_background env videos voice_url bgm_enabled =
      (upd 10 "Downloading videos..." :: (dlPart env videos).1 ++ [failedUpdate e],
       .error e) := by
  simp only [process_videos_background, h]

/-- Unfolding of a run whose voice download raises. -/
theorem pvb_eq_voice_error (env : PipelineEnv) (videos : List Clip)
    (voice_url : Option String) (bgm_enabled : Bool) (paths : List String) (e : String)
    (h1 : (dlPart env videos).2 = .ok paths)
    (h2 : (voiceStep env voice_url).2 = .error e) :
    process_videos_background env videos voice_url bgm_enabled =
      (upd 10 "Downloading videos..." :: (dlPart env videos).1
        ++ (voiceStep env voice_url).1 ++ [failedUpdate e], .error e) := by
  simp only [process_videos_background, h1, h2]

/-- Unfolding of a run that reaches the stitch stage. -/
theorem pvb_eq_main (env : PipelineEnv) (videos : List Clip)
    (voice_url : Option String) (bgm_enabled : Bool) (paths : List String)
    (voice_path : Option String)
    (h1 : (dlPart env videos).2 = .ok paths)
    (h2 : (voiceStep env voice_url).2 = .ok voice_path) :
    process_videos_background env videos voice_url bgm_enabled =
      (upd 10 "Downloading videos..." :: (dlPart env videos).1
        ++ (voiceStep env voice_url).1 ++ (bgmStep env bgm_enabled).1
        ++ (stitchAndUpload env paths voice_path (bgmStep env bgm_enabled).2).1,
       (stitchAndUpload env paths voice_path (bgmStep env bgm_enabled).2).2) := by
  simp only [process_videos_background, h1, h2]

/-- Shape of a full background run: the trace is a block of processing
updates followed by exactly one terminal update, failed with the raised
error when the outcome is an error, completed when the outcome is a
success. -/
theorem pvb_shape (env : PipelineEnv) (videos : List Clip)
    (voice_url : Option String) (bgm_enabled : Bool) :
    ∃ pre last,
      (process_videos_background env videos voice_url bgm_enabled).1 = pre ++ [last]
      ∧ (∀ u ∈ pre, u.status = "processing")
      ∧ ((∃ e, (process_videos_background env videos voice_url bgm_enabled).2 = .error e
            ∧ last = failedUpdate e)
        ∨ (∃ url,
            (process_videos_background env videos voice_url bgm_enabled).2 = .ok url
            ∧ last = completedUpdate)) := by
  cases hdl : (dlPart env videos).2 with
  | error e =>
    rw [pvb_eq_dl_error env videos voice_url bgm_enabled e hdl]
    refine ⟨upd 10 "Downloading videos..." :: (dlPart env videos).1, failedUpdate e,
      by simp, ?_, Or.inl ⟨e, rfl, rfl⟩⟩
    intro u hu
    rcases List.mem_cons.mp hu with hu | hu
    · subst hu; rfl
    · exact downloadClips_statuses env.download _ _ 0 u hu
  | ok paths =>
    cases hv : (voiceStep env voice_url).2 with
    | error e =>
      rw [pvb_eq_voice_error env videos voice_url bgm_enabled paths e hdl hv]
      refine ⟨upd 10 "Downloading videos..." :: ((dlPart env videos).1
        ++ (voiceStep env voice_url).1), failedUpdate e, by simp, ?_,
        Or.inl ⟨e, rfl, rfl⟩⟩
      intro u hu
      rcases List.mem_cons.mp hu with hu | hu
      · subst hu; rfl
      rcases List.mem_append.mp hu with hu | hu
      · exact downloadClips_statuses env.download _ _ 0 u hu
      · exact voiceStep_statuses env voice_url u hu
    | ok voice_path =>
      rw [pvb_eq_main env videos voice_url bgm_enabled paths voice_path hdl hv]
      obtain ⟨spre, slast, hseq, hspre, hslast⟩ :=
        stitchAndUpload_shape env paths voice_path (bgmStep env bgm_enabled).2
      refine ⟨upd 10 "Downloading videos..." :: ((dlPart env videos).1
        ++ (voiceStep env voice_url).1 ++ (bgmStep env bgm_enabled).1 ++ spre),
        slast, by simp [hseq], ?_, hslast⟩
      intro u hu
      rcases List.mem_cons.mp hu with hu | hu
      · subst hu; rfl
      rcases List.mem_append.mp hu with hu | hu
      · rcases List.mem_append.mp hu with hu | hu
        · rcases List.mem_append.mp hu with hu | hu
          · exact downloadClips_statuses env.download _ _ 0 u hu
          · exact voiceStep_statuses env voice_url u hu
        · exact bgmStep_statuses env bgm_enabled u hu
      · exact hspre u hu

/-! ## C7: failure handling -/

/-- A concrete environment in which only the BGM selection stage raises and
every other collaborator succeeds. -/
def bgmFailEnv : PipelineEnv :=
  { download := fun _ => .ok "p"
    downloadVoice := fun _ => .ok "v"
    bgmSelect := .error "boom"
    bgmProcess := fun _ => .ok "b"
    stitch := fun _ _ _ => .ok "out.mp4"
    upload := fun _ => .ok "url" }

/-- C7 counterexample.  The BGM selection stage is a pipeline stage that
raises an error, yet the job does not transition to Failed: it completes
(src/main.py lines 199-201 catch the error and proceed without BGM).  So
"any pipeline stage raises an error implies Failed" is false as stated. -/
theorem failure_transition_cex :
    bgmFailEnv.bgmSelect = .error "boom"
    ∧ (process_videos_background bgmFailEnv [⟨"u", 1⟩] none true).2 = .ok "url"
    ∧ ((process_videos_background bgmFailEnv [⟨"u", 1⟩] none true).1.map
        (fun u => u.status)) =
        ["processing", "processing", "processing", "processing", "processing",
         "completed"]
    ∧ ¬("failed" ∈ ((process_videos_background bgmFailEnv [⟨"u", 1⟩] none true).1.map
        (fun u => u.status))) :=
  ⟨rfl, rfl, rfl, by decide⟩

/-- C7 as amended.  For every job in which a pipeline stage other than the
best-effort BGM stage raises an error (i.e. the run's outcome is an error),
the session transitions to terminal Failed with a non-empty human-readable
message, progress reset to 0, as the final update of the trace, and no
update of the job ever has status Completed. -/
theorem failure_trace_terminal (env : PipelineEnv) (videos : List Clip)
    (voice_url : Option String) (bgm_enabled : Bool) (e : String)
    (h : (process_videos_background env videos voice_url bgm_enabled).2 = .error e) :
    (process_videos_background env videos voice_url bgm_enabled).1.getLast? =
        some (failedUpdate e)
    ∧ (failedUpdate e).progress = 0
    ∧ (failedUpdate e).message ≠ ""
    ∧ ∀ u ∈ (process_videos_background env videos voice_url bgm_enabled).1,
        u.status ≠ "completed" := by
  obtain ⟨pre, last, htr, hpre, hlast⟩ := pvb_shape env videos voice_url bgm_enabled
  rcases hlast with ⟨e2, he2, hl⟩ | ⟨url, hurl, hl⟩
  · rw [h] at he2
    injection he2 with he2
    subst he2
    subst hl
    refine ⟨by rw [htr]; exact List.getLast?_concat pre, rfl, ?_, ?_⟩
    · intro hmsg
      have hlen := congrArg String.length hmsg
      rw [show (failedUpdate e).message = "Processing failed: " ++ e from rfl,
        String.length_append] at hlen
      have h19 : ("Processing failed: " : String).length = 19 := rfl
      have h0 : ("" : String).length = 0 := rfl
      omega
    · intro u hu
      rw [htr] at hu
      rcases List.mem_append.mp hu with hu | hu
      · rw [hpre u hu]; decide
      · rcases List.mem_singleton.mp hu with hu
        subst hu
        show ("failed" : String) ≠ "completed"
        decide
  · rw [h] at hurl
    cases hurl

/-- Witness for C7 as amended, at a concrete run whose stitch stage fails. -/
theorem failure_trace_terminal_witness :
    (process_videos_background
        { bgmFailEnv with stitch := fun _ _ _ => .error "ffmpeg exploded" }
        [⟨"u", 1⟩] none false).2 = .error "ffmpeg exploded"
    ∧ (process_videos_background
        { bgmFailEnv with stitch := fun _ _ _ => .error "ffmpeg exploded" }
        [⟨"u", 1⟩] none false).1.getLast? = some (failedUpdate "ffmpeg exploded")
    ∧ (failedUpdate "ffmpeg exploded").progress = 0
    ∧ (failedUpdate "ffmpeg exploded").message ≠ ""
    ∧ ∀ u ∈ (process_videos_background
        { bgmFailEnv with stitch := fun _ _ _ => .error "ffmpeg exploded" }
        [⟨"u", 1⟩] none false).1, u.status ≠ "completed" := by
  have h := failure_trace_terminal
    { bgmFailEnv with stitch := fun _ _ _ => .error "ffmpeg exploded" }
    [⟨"u", 1⟩] none false "ffmpeg exploded" rfl
  exact ⟨rfl, h.1, h.2.1, h.2.2.1, h.2.2.2⟩

/-! ## C8: BGM failure is best-effort -/

/-- C8.  A BGM selection or BGM processing failure never fails the job: the
BGM stage resolves to no BGM (the BGM path is dropped) and emits no failure;
the job outcome is a success exactly when the download, voice, stitch and
upload stages all succeed — the BGM outcomes enter only as the (possibly
dropped) path handed to the stitch stage — and the trace contains a Failed
update exactly when the outcome is an error. -/
theorem bgm_failure_best_effort :
    (∀ env e, env.bgmSelect = .error e → (bgmStep env true).2 = none)
    ∧ (∀ env p e, env.bgmSelect = .ok (some p) → env.bgmProcess p = .error e →
        (bgmStep env true).2 = none)
    ∧ (∀ env videos voice_url bgm_enabled url,
        (process_videos_background env videos voice_url bgm_enabled).2 = .ok url ↔
          ∃ paths vp out, (dlPart env videos).2 = .ok paths
            ∧ (voiceStep env voice_url).2 = .ok vp
            ∧ env.stitch paths vp (bgmStep env bgm_enabled).2 = .ok out
            ∧ env.upload out = .ok url)
    ∧ (∀ env videos voice_url bgm_enabled,
        (∃ url, (process_videos_background env videos voice_url bgm_enabled).2
            = .ok url)
          ↔ ∀ u ∈ (process_videos_background env videos voice_url bgm_enabled).1,
              u.status ≠ "failed") := by
  refine ⟨?_, ?_, ?_, ?_⟩
  · intro env e h
    simp [bgmStep, h]
  · intro env p e h1 h2
    simp [bgmStep, h1, h2]
  · intro env videos voice_url bgm_enabled url
    cases hdl : (dlPart env videos).2 with
    | error e =>
      rw [pvb_eq_dl_error env videos voice_url bgm_enabled e hdl]
      simp
    | ok paths =>
      cases hv : (voiceStep env voice_url).2 with
      | error e =>
        rw [pvb_eq_voice_error env videos voice_url bgm_enabled paths e hdl hv]
        simp [hv]
      | ok vp =>
        rw [pvb_eq_main env videos voice_url bgm_enabled paths vp hdl hv]
        unfold stitchAndUpload
        cases hs : env.stitch paths vp (bgmStep env bgm_enabled).2 with
        | error e => simp [hs, hv]
        | ok out =>
          dsimp only
          cases hup : env.upload out with
          | error e => simp [hs, hv, hup]
          | ok url2 => simp [hs, hv, hup]
  · intro env videos voice_url bgm_enabled
    obtain ⟨pre, last, htr, hpre, hlast⟩ := pvb_shape env videos voice_url bgm_enabled
    constructor
    · rintro ⟨url, hurl⟩ u hu
      rcases hlast with ⟨e2, he2, hl⟩ | ⟨url2, hurl2, hl⟩
      · rw [hurl] at he2; cases he2
      · subst hl
        rw [htr] at hu
        rcases List.mem_append.mp hu with hu | hu
        · rw [hpre u hu]; decide
        · rcases List.mem_singleton.mp hu with hu
          subst hu; decide
    · intro hall
      rcases hlast with ⟨e2, he2, hl⟩ | ⟨url2, hurl2, hl⟩
      · exfalso
        refine hall last ?_ ?_
        · rw [htr]; simp
        · rw [hl]; rfl
      · exact ⟨url2, hurl2⟩

/-- Witness for C8: with only the BGM stage failing, the BGM path is
dropped, the job completes, and no Failed update is written. -/
theorem bgm_failure_best_effort_witness :
    (bgmStep bgmFailEnv true).2 = none
    ∧ (process_videos_background bgmFailEnv [⟨"u", 1⟩] none true).2 = .ok "url"
    ∧ ∀ u ∈ (process_videos_background bgmFailEnv [⟨"u", 1⟩] none true).1,
        u.status ≠ "failed" := by
  refine ⟨bgm_failure_best_effort.1 bgmFailEnv "boom" rfl, ?_, ?_⟩
  · exact (bgm_failure_best_effort.2.2.1 bgmFailEnv [⟨"u", 1⟩] none true "url").mpr
      ⟨["p"], none, "out.mp4", rfl, rfl, rfl, rfl⟩
  · exact (bgm_failure_best_effort.2.2.2 bgmFailEnv [⟨"u", 1⟩] none true).mp
      ⟨"url", rfl⟩

/-! ## C9: session lifecycle -/

/-- C9 counterexample.  The session record is created with status
`'processing'` (src/firebase_utils.py line 36), not in a distinct Created
state, so "at request admission the record is created in state Created" is
false on the code. -/
theorem session_created_status_cex :
    (create_session "sid" none 1 "portrait" false (3/10)).status = "processing"
    ∧ ¬((create_session "sid" none 1 "portrait" false (3/10)).status = "created") :=
  ⟨rfl, by decide⟩

/-- C9 as amended.  The record is created directly in state Processing at
request admission (there is no distinct Created state); every interim update
of the background run keeps status Processing, and the run ends with exactly
one terminal update, Completed or Failed, after which no further update is
written — a terminal state is left only by deleting the whole record. -/
theorem session_lifecycle (sid : String) (vurl : Option String) (vvol : ℚ)
    (mode : String) (be : Bool) (bvol : ℚ) (env : PipelineEnv) (videos : List Clip)
    (voice_url : Option String) (bgm_enabled : Bool) :
    (create_session sid vurl vvol mode be bvol).status = "processing"
    ∧ (∀ u ∈ (process_videos_background env videos voice_url bgm_enabled).1.dropLast,
        u.status = "processing")
    ∧ (∃ last,
        (process_videos_background env videos voice_url bgm_enabled).1.getLast? =
          some last
        ∧ (last.status = "completed" ∨ last.status = "failed")) := by
  obtain ⟨pre, last, htr, hpre, hlast⟩ := pvb_shape env videos voice_url bgm_enabled
  refine ⟨rfl, ?_, ⟨last, ?_, ?_⟩⟩
  · intro u hu
    rw [htr, List.dropLast_concat] at hu
    exact hpre u hu
  · rw [htr]
    exact List.getLast?_concat pre
  · rcases hlast with ⟨e, _, hl⟩ | ⟨url, _, hl⟩
    · subst hl; exact Or.inr rfl
    · subst hl; exact Or.inl rfl

/-! ## C6: volume validation -/

/-- Whether a provided volume value lies outside the closed interval
[0, 2]; an absent value is never out of range. -/
def volumeOutOfRange : Option ℚ → Prop
  | some v => v < 0 ∨ 2 < v
  | none => False

instance (o : Option ℚ) : Decidable (volumeOutOfRange o) :=
  match o with
  | some v => inferInstanceAs (Decidable (v < 0 ∨ 2 < v))
  | none => inferInstanceAs (Decidable False)

/-- A request whose BGM volume is out of range while BGM is disabled. -/
def cexRequest : StitchRequest :=
  { videos := [⟨"u", 1⟩], voice_url := none, voice_volume := some 1,
    mode := "portrait", bgm_enabled := false, bgm_category := none,
    bgm_volume := some 3 }

/-- C6 counterexample.  A request with `bgm_enabled=false` and
`bgm_volume=3` carries a volume parameter outside [0, 2] yet is admitted:
src/main.py lines 87-89 validate `bgm_volume` only when BGM is enabled, so
"rejected iff outside [0, 2]" fails in the only-if direction. -/
theorem volume_validation_cex :
    stitch_validate cexRequest = .ok ()
    ∧ cexRequest.bgm_volume = some 3
    ∧ volumeOutOfRange cexRequest.bgm_volume := by
  refine ⟨rfl, rfl, by decide⟩

/-- C6 as amended.  For a request that passes the non-volume checks (at
least one clip, valid mode): a provided voice volume is rejected iff it is
outside [0, 2], while a provided BGM volume is rejected iff BGM is enabled
and it is outside [0, 2]. -/
theorem volume_validation_iff (r : StitchRequest)
    (hv : 1 ≤ r.videos.length) (hm : r.mode = "portrait" ∨ r.mode = "landscape") :
    isVolumeRejection (stitch_validate r) = true ↔
      volumeOutOfRange r.voice_volume
      ∨ (r.bgm_enabled = true ∧ volumeOutOfRange r.bgm_volume) := by
  have h1 : ¬(r.videos.length < 1) := by omega
  have h3 : ¬(r.mode ≠ "portrait" ∧ r.mode ≠ "landscape") := by
    rcases hm with h | h <;> simp [h]
  unfold stitch_validate
  rw [if_neg h1]
  rcases hvv : r.voice_volume with _ | v
  · simp only [hvv]
    rw [if_neg (by simp)]
    rw [if_neg h3]
    rcases hbe : r.bgm_enabled with _ | _
    · simp [isVolumeRejection, volumeOutOfRange, hvv, hbe]
    · rcases hbv : r.bgm_volume with _ | w
      · simp [isVolumeRejection, volumeOutOfRange, hvv, hbe, hbv]
      · by_cases hw : w < 0 ∨ 2 < w
        · rw [if_pos (by simp [hbv]; exact (by simpa [decide_eq_true_eq] using hw))]
          simp [isVolumeRejection, volumeOutOfRange, hvv, hbe, hbv, hw]
        · rw [if_neg (by simp [hbv]; simpa [decide_eq_true_eq] using hw)]
          simp [isVolumeRejection, volumeOutOfRange, hvv, hbe, hbv, hw]
  · by_cases hva : v < 0 ∨ 2 < v
    · rw [if_pos (by simp only [hvv]; simpa [decide_eq_true_eq] using hva)]
      simp [isVolumeRejection, volumeOutOfRange, hvv, hva]
    · rw [if_neg (by simp only [hvv]; simpa [decide_eq_true_eq] using hva)]
      rw [if_neg h3]
      rcases hbe : r.bgm_enabled with _ | _
      · simp [isVolumeRejection, volumeOutOfRange, hvv, hva, hbe]
      · rcases hbv : r.bgm_volume with _ | w
        · simp [isVolumeRejection, volumeOutOfRange, hvv, hva, hbe, hbv]
        · by_cases hw : w < 0 ∨ 2 < w
          · rw [if_pos (by simp [hbv]; simpa [decide_eq_true_eq] using hw)]
            simp [isVolumeRejection, volumeOutOfRange, hvv, hva, hbe, hbv, hw]
          · rw [if_neg (by simp [hbv]; simpa [decide_eq_true_eq] using hw)]
            simp [isVolumeRejection, volumeOutOfRange, hvv, hva, hbe, hbv, hw]

/-- Witness for C6 as amended, at concrete in-range and out-of-range
requests. -/
theorem volume_validation_iff_witness :
    (isVolumeRejection (stitch_validate cexRequest) = false)
    ∧ (isVolumeRejection (stitch_validate
        { cexRequest with bgm_enabled := true }) = true)
    ∧ (isVolumeRejection (stitch_validate
        { cexRequest with voice_volume := some 5 }) = true) := by
  have h1 := volume_validation_iff cexRequest (by decide) (Or.inl rfl)
  have h2 := volume_validation_iff { cexRequest with bgm_enabled := true }
    (by decide) (Or.inl rfl)
  have h3 := volume_validation_iff { cexRequest with voice_volume := some 5 }
    (by decide) (Or.inl rfl)
  refine ⟨?_, ?_, ?_⟩
  · have : ¬(volumeOutOfRange cexRequest.voice_volume
      ∨ (cexRequest.bgm_enabled = true ∧ volumeOutOfRange cexRequest.bgm_volume)) := by
      decide
    cases hres : isVolumeRejection (stitch_validate cexRequest)
    · rfl
    · exact absurd (h1.mp hres) this
  · exact h2.mpr (Or.inr ⟨rfl, by decide⟩)
  · exact h3.mpr (Or.inl (by decide))

end VideoStitch
